import Mathlib

/-!
Shallow embedding of the InfluxDB HTTP client (`src/client.rs`) and of the
data model it consumes.  The repository ships only `client.rs` and `lib.rs`;
the modules `error.rs`, `keys.rs` and `serialization.rs` that `lib.rs`
declares are absent, so their definitions are modelled from the
specification and marked as such.  External collaborators (the `reqwest`
transport, the `url` crate, `serde_json`) are abstracted: the transport
outcome of a call is an explicit argument, and the fallible URL and JSON
operations are function parameters.  Rust `unwrap`/`expect` panics are made
explicit through the `Outcome` type.
-/

namespace Influx

/-- Modelled from the spec: the closed error taxonomy of the missing
`error.rs` module (spec section 7): each kind carries a message string, plus a
transport-error passthrough used by the `?` operator on network failures.
The `Unknow` spelling follows the variant name referenced by `client.rs`. -/
inductive Error where
  | SyntaxError (msg : String)
  | InvalidCredentials (msg : String)
  | DataBaseDoesNotExist (msg : String)
  | RetentionPolicyDoesNotExist (msg : String)
  | Unknow (msg : String)
  | Transport (msg : String)
  deriving Repr, DecidableEq

/-- Modelled from the spec: a JSON scalar cell of a result row (spec
section 3; floating-point cells are out of scope of the claims and omitted). -/
inductive JScalar where
  | str (v : String)
  | num (v : Int)
  | boolean (v : Bool)
  | null
  deriving Repr, DecidableEq

/-- Modelled from the spec: one series of a query result (missing `keys.rs`). -/
structure Series where
  name : String
  tags : Option (List (String × String))
  columns : List String
  values : Option (List (List JScalar))
  deriving Repr, DecidableEq

/-- Modelled from the spec: one statement result inside a `Query` document. -/
structure Node where
  series : Option (List Series)
  error : Option String
  deriving Repr, DecidableEq

/-- Modelled from the spec: a query response document (missing `keys.rs`):
`results` on success, `error` on a per-document failure. -/
structure Query where
  results : Option (List Node)
  error : Option String
  deriving Repr, DecidableEq

/-- Modelled from the spec: a field or tag value (missing `keys.rs`). -/
inductive Value where
  | Text (s : String)
  | Integer (i : Int)
  | Float (f : Float)
  | Boolean (b : Bool)

/-- Modelled from the spec: one measurement observation (missing `keys.rs`):
name, ordered tag pairs, ordered field pairs, optional timestamp. -/
structure Point where
  measurement : String
  tags : List (String × Value)
  fields : List (String × Value)
  timestamp : Option Int

/-- Modelled from the spec: `Points::new` (missing `keys.rs`) wraps a single
point as a one-element sequence (spec section 3: a `Points` collection "may be
backed by a single point or many"). -/
def Points.new (p : Point) : List Point := [p]

/-- Modelled from the spec: the timestamp precision enum (missing `keys.rs`). -/
inductive Precision where
  | Nanoseconds
  | Microseconds
  | Milliseconds
  | Seconds
  | Minutes
  | Hours
  deriving Repr, DecidableEq

/-- Modelled from the spec: wire token of each precision (spec section 2:
ns/us/ms/s/m/h). -/
def Precision.to_str : Precision → String
  | .Nanoseconds => "ns"
  | .Microseconds => "us"
  | .Milliseconds => "ms"
  | .Seconds => "s"
  | .Minutes => "m"
  | .Hours => "h"

/-- HTTP request method chosen by `send_request`. -/
inductive Method where
  | GET
  | POST
  deriving Repr, DecidableEq

/-- Model of Rust `str::to_lowercase` (agrees with it on ASCII input). -/
def to_lowercase (s : String) : String := String.map Char.toLower s

/-- Model of Rust `str::starts_with` via character lists. -/
def starts_with (s pre : String) : Bool := pre.toList.isPrefixOf s.toList

/-- Substring search on character lists: the needle is a prefix of some
suffix of the haystack. -/
def listContains (needle : List Char) : List Char → Bool
  | [] => needle.isPrefixOf ([] : List Char)
  | c :: rest => needle.isPrefixOf (c :: rest) || listContains needle rest

/-- Model of Rust `str::contains` for string needles. -/
def contains_str (s sub : String) : Bool := listContains sub.toList s.toList

/-- An HTTP response as the client observes it: status code and body text
(the body as read by `read_to_string`; read errors are ignored by the
source, so the body is taken as given). -/
structure HttpResponse where
  status : Nat
  body : String
  deriving Repr, DecidableEq

/-- Result of a `reqwest` send: a response, or a transport-level error
(`reqwest::Error`, carried as its message). -/
inductive SendResult where
  | ok (resp : HttpResponse)
  | err (msg : String)
  deriving Repr, DecidableEq

/-- A computation that may abort the process: `panicked` models a Rust
`unwrap`/`expect` panic, `ok` a normal return. -/
inductive Outcome (α : Type) where
  | ok (val : α)
  | panicked (msg : String)
  deriving Repr, DecidableEq

/-- Sequencing of possibly-panicking computations: a panic propagates. -/
def Outcome.bind {α β : Type} : Outcome α → (α → Outcome β) → Outcome β
  | .panicked m, _ => .panicked m
  | .ok a, f => f a

/-- Interface of the external `url` crate as `build_url` uses it: each
operation may fail (the source unwraps every result).  URLs are represented
by their text. -/
structure UrlLib where
  parse : String → Option String
  join : String → String → Option String
  parseWithParams : String → List (String × String) → Option String

/-- The client configuration: the `InfluxClient` fields `host`, `db` and
`authentication`.  The `reqwest::Client` handle is the external transport,
modelled by the `SendResult` supplied at each call. -/
structure InfluxClient where
  host : String
  db : String
  authentication : Option (String × String)

/-- Model of `InfluxClient::build_url`: parse the host, join the endpoint
key, re-parse with the credential parameters and then with the call
parameters; every parse failure is an `unwrap` panic in the source. -/
def build_url (lib : UrlLib) (self : InfluxClient) (key : String)
    (param : Option (List (String × String))) : Outcome String :=
  match lib.parse self.host with
  | none => .panicked "Url::parse unwrap"
  | some parsed =>
    match lib.join parsed key with
    | none => .panicked "Url::join unwrap"
    | some url =>
      let authentication :=
        match self.authentication with
        | some t => [("u", t.1), ("p", t.2)]
        | none => []
      match lib.parseWithParams url authentication with
      | none => .panicked "Url::parse_with_params unwrap"
      | some url2 =>
        match param with
        | some ps =>
          match lib.parseWithParams url2 ps with
          | none => .panicked "Url::parse_with_params unwrap"
          | some url3 => .ok url3
        | none => .ok url2

/-- The query parameters `write_points` attaches to the write URL: the
database, the precision (defaulting to seconds), and the optional retention
policy. -/
def write_params (db : String) (precision : Option Precision)
    (rp : Option String) : List (String × String) :=
  [("db", db)]
    ++ [("precision", match precision with | some t => t.to_str | none => "s")]
    ++ (match rp with | some t => [("rp", t)] | none => [])

/-- Model of `InfluxClient::write_points`: serialize the points, build the
write URL, POST the line payload (transport outcome `send`), read the body,
and map the response status to the outcome.  `line_serialization` and
`conv` stand for the functions of the missing `serialization.rs` module
(`conv` is the administrative-message extraction rule). -/
def write_points (lib : UrlLib) (conv : String → String)
    (line_serialization : List Point → String) (self : InfluxClient)
    (points : List Point) (precision : Option Precision) (rp : Option String)
    (send : SendResult) : Outcome (Except Error Unit) :=
  let _line := line_serialization points
  (build_url lib self "write" (some (write_params self.db precision rp))).bind
    fun _url =>
      match send with
      | .err e => .ok (.error (.Transport e))
      | .ok res =>
        let err := res.body
        .ok (if res.status = 200 ∨ res.status = 204 then .ok ()
          else if res.status = 400 then .error (.SyntaxError (conv err))
          else if res.status = 401 ∨ res.status = 403 then
            .error (.InvalidCredentials "Invalid authentication credentials.")
          else if res.status = 404 then .error (.DataBaseDoesNotExist (conv err))
          else if res.status = 500 then
            .error (.RetentionPolicyDoesNotExist err)
          else .error (.Unknow "There is something wrong"))

/-- Model of `InfluxClient::write_point`: delegates to `write_points` applied
to `Points::new point`. -/
def write_point (lib : UrlLib) (conv : String → String)
    (line_serialization : List Point → String) (self : InfluxClient)
    (point : Point) (precision : Option Precision) (rp : Option String)
    (send : SendResult) : Outcome (Except Error Unit) :=
  write_points lib conv line_serialization self (Points.new point) precision rp send

/-- The query parameters `send_request` attaches to the query URL. -/
def query_params (db q : String) (epoch : Option Precision) (chunked : Bool) :
    List (String × String) :=
  [("db", db), ("q", q)]
    ++ (match epoch with | some t => [("epoch", t.to_str)] | none => [])
    ++ (if chunked then [("chunked", "true")] else [])

/-- The method choice inside `send_request`: GET when the lowercased query
starts with "select" and does not contain "into", or starts with "show";
POST otherwise. -/
def request_method (q : String) : Method :=
  let q_lower := to_lowercase q
  if (starts_with q_lower "select" && !contains_str q_lower "into")
      || starts_with q_lower "show" then .GET else .POST

/-- Model of `InfluxClient::send_request`: build the query URL, send with GET
or POST per `request_method` (the transport is `send`, a function of the
chosen method), and classify the response status.  On 400 the body is parsed
as a `Query` document and its `error` field extracted, both unwrapped (panic
on failure).  `parseQuery` stands for `serde_json` deserialization into
`Query`. -/
def send_request (lib : UrlLib) (parseQuery : String → Option Query)
    (conv : String → String) (self : InfluxClient) (q : String)
    (epoch : Option Precision) (chunked : Bool) (send : Method → SendResult) :
    Outcome (Except Error HttpResponse) :=
  (build_url lib self "query" (some (query_params self.db q epoch chunked))).bind
    fun _url =>
      match send (request_method q) with
      | .err e => .ok (.error (.Transport e))
      | .ok res =>
        if res.status = 200 ∨ res.status = 204 then .ok (.ok res)
        else if res.status = 400 then
          match parseQuery res.body with
          | none => .panicked "serde_json from_str unwrap"
          | some json_data =>
            match json_data.error with
            | none => .panicked "Option unwrap"
            | some e => .ok (.error (.SyntaxError (conv e)))
        else if res.status = 401 ∨ res.status = 403 then
          .ok (.error (.InvalidCredentials "Invalid authentication credentials."))
        else .ok (.error (.Unknow "There is something wrong"))

/-- Model of `InfluxClient::query_raw`: on a successful `send_request`, read
the body and parse it as one `Query` document, unwrapped (panic when the
body is not valid `Query` JSON). -/
def query_raw (lib : UrlLib) (parseQuery : String → Option Query)
    (conv : String → String) (self : InfluxClient) (q : String)
    (epoch : Option Precision) (send : Method → SendResult) :
    Outcome (Except Error Query) :=
  (send_request lib parseQuery conv self q epoch false send).bind fun r =>
    match r with
    | .error e => .ok (.error e)
    | .ok response =>
      let context := response.body
      match parseQuery context with
      | none => .panicked "serde_json from_str unwrap"
      | some json_data => .ok (.ok json_data)

/-- Model of `InfluxClient::query`: returns the `results` field of the
`Query` value produced by `query_raw`. -/
def query (lib : UrlLib) (parseQuery : String → Option Query)
    (conv : String → String) (self : InfluxClient) (q : String)
    (epoch : Option Precision) (send : Method → SendResult) :
    Outcome (Except Error (Option (List Node))) :=
  (query_raw lib parseQuery conv self q epoch send).bind fun r =>
    match r with
    | .ok t => .ok (.ok t.results)
    | .error e => .ok (.error e)

/-- Model of `InfluxClient::query_raw_chunked`: send with `chunked=true` and
hand the raw response body to the stream deserializer; the returned cursor is
modelled by its initial state, the unconsumed body text. -/
def query_raw_chunked (lib : UrlLib) (parseQuery : String → Option Query)
    (conv : String → String) (self : InfluxClient) (q : String)
    (epoch : Option Precision) (send : Method → SendResult) :
    Outcome (Except Error String) :=
  (send_request lib parseQuery conv self q epoch true send).bind fun r =>
    match r with
    | .error e => .ok (.error e)
    | .ok response => .ok (.ok response.body)

/-- Modelled from the spec: the chunked stream (`ChunkedQuery` of the missing
`keys.rs`, backed by a `serde_json` stream deserializer) is a pull-based
cursor: each pull applies `parseOne` to the unconsumed input, yielding one
`Query` and the remaining input, and the stream ends when `parseOne` yields
nothing (end of the byte stream, conflated with a malformed chunk exactly as
the source does).  `fuel` bounds the number of pulls performed. -/
def chunkCollect (parseOne : String → Option (Query × String)) :
    Nat → String → List Query
  | 0, _ => []
  | fuel + 1, s =>
    match parseOne s with
    | none => []
    | some (qv, rest) => qv :: chunkCollect parseOne fuel rest

/-- Concatenation of a sequence of chunk documents into one response body. -/
def concatDocs : List String → String
  | [] => ""
  | d :: ds => d ++ concatDocs ds

/-- Model of `InfluxClient::ping`: GET the ping URL; `true` on status 200,
`false` on any other status or on a transport error (the error is
swallowed). -/
def ping (lib : UrlLib) (self : InfluxClient) (send : SendResult) : Outcome Bool :=
  (build_url lib self "ping" none).bind fun _url =>
    .ok (match send with
      | .ok res => res.status == 200
      | .err _ => false)

/-- A URL library in which every operation succeeds, for concrete
instantiation of the theorems. -/
def trivLib : UrlLib where
  parse := fun s => some s
  join := fun a b => some (a ++ b)
  parseWithParams := fun u _ => some u

/-- A URL library whose `parse` rejects the empty string, as the `url`
crate's `Url::parse("")` does (it returns `RelativeUrlWithoutBase`). -/
def emptyHostLib : UrlLib where
  parse := fun s => if s = "" then none else some s
  join := fun a b => some (a ++ b)
  parseWithParams := fun u _ => some u

/-- A sample client configuration. -/
def cfgEx : InfluxClient where
  host := "http://h"
  db := "db"
  authentication := none

/-- A client configured with an empty host string. -/
def cfgEmptyHost : InfluxClient where
  host := ""
  db := "test"
  authentication := none

/-- Whether a write outcome is the `Unknow` error kind with some message. -/
def is_unknow_outcome : Outcome (Except Error Unit) → Bool
  | .ok (.error (.Unknow _)) => true
  | _ => false

/-- A sample `Query` document carrying a distinguishing tag in its `error`
field. -/
def qDoc (tag : String) : Query where
  results := none
  error := some tag

/-- A concrete one-document parser for witnesses: consumes one leading
character among a, b, c and yields the correspondingly tagged `Query`. -/
def exParse (s : String) : Option (Query × String) :=
  match s.toList with
  | 'a' :: rest => some (qDoc "a", String.mk rest)
  | 'b' :: rest => some (qDoc "b", String.mk rest)
  | 'c' :: rest => some (qDoc "c", String.mk rest)
  | _ => none

end Influx

namespace Influx

/-- Bridge between the executable substring search and the infix relation. -/
theorem listContains_iff (needle hay : List Char) :
    listContains needle hay = true ↔ needle <:+: hay := by
  induction hay with
  | nil =>
    simp [listContains, List.isPrefixOf_iff_prefix, List.infix_nil, List.prefix_nil]
  | cons c rest ih =>
    simp [listContains, List.isPrefixOf_iff_prefix, List.infix_cons_iff, ih]

/-- Negative form of `listContains_iff`. -/
theorem listContains_eq_false (needle hay : List Char) :
    listContains needle hay = false ↔ ¬ needle <:+: hay := by
  rw [← listContains_iff]
  cases h : listContains needle hay <;> simp

/-- C9: for every point, precision and retention-policy argument,
`write_point` returns exactly the result of `write_points` on the
single-element collection containing that point, with the same precision and
retention policy (the source delegates through `Points::new`). -/
theorem write_point_refines_write_points (lib : UrlLib) (conv : String → String)
    (line_serialization : List Point → String) (self : InfluxClient)
    (point : Point) (precision : Option Precision) (rp : Option String)
    (send : SendResult) :
    write_point lib conv line_serialization self point precision rp send
      = write_points lib conv line_serialization self [point] precision rp send := rfl

/-- C6: the request is sent with GET exactly when the query, compared
case-insensitively, is a select statement that does not contain "into", or a
show statement; otherwise POST is used. -/
theorem request_method_get_iff (q : String) :
    request_method q = Method.GET ↔
      (("select".toList <+: (to_lowercase q).toList
          ∧ ¬ "into".toList <:+: (to_lowercase q).toList)
        ∨ "show".toList <+: (to_lowercase q).toList) := by
  have hcond : ((starts_with (to_lowercase q) "select"
        && !contains_str (to_lowercase q) "into")
        || starts_with (to_lowercase q) "show") = true ↔
      (("select".toList <+: (to_lowercase q).toList
          ∧ ¬ "into".toList <:+: (to_lowercase q).toList)
        ∨ "show".toList <+: (to_lowercase q).toList) := by
    simp [starts_with, contains_str, Bool.or_eq_true, Bool.and_eq_true,
      Bool.not_eq_true', List.isPrefixOf_iff_prefix, listContains_eq_false]
  rw [← hcond]
  cases hb : ((starts_with (to_lowercase q) "select"
      && !contains_str (to_lowercase q) "into")
      || starts_with (to_lowercase q) "show") <;>
    simp [request_method, hb]

/-- C1 (counterexample): at status 401 — a status other than 200, 204, 400,
404 and 500 — the write path returns `InvalidCredentials`, not the `Unknow`
kind the claim's catch-all clause demands. -/
theorem write_401_invalid_credentials_not_unknow :
    write_points trivLib id (fun _ => "") cfgEx [] none none (.ok ⟨401, "body"⟩)
        = .ok (.error (.InvalidCredentials "Invalid authentication credentials."))
      ∧ is_unknow_outcome (write_points trivLib id (fun _ => "") cfgEx [] none none
          (.ok ⟨401, "body"⟩)) = false := by
  constructor <;> rfl

/-- C1 (amended): for every write call, given a host that URL-parses, the
outcome is determined by the status per the full write-path table: 200/204
success; 400 `SyntaxError` with the conversion of the body; 401/403
`InvalidCredentials` with the fixed message; 404 `DataBaseDoesNotExist` with
the conversion of the body; 500 `RetentionPolicyDoesNotExist` with the raw
body; any status outside the table `Unknow` with a generic message. -/
theorem write_status_table (lib : UrlLib) (conv : String → String)
    (line_serialization : List Point → String) (self : InfluxClient)
    (points : List Point) (precision : Option Precision) (rp : Option String)
    (u : String)
    (hurl : build_url lib self "write" (some (write_params self.db precision rp))
      = .ok u)
    (status : Nat) (body : String) :
    (status = 200 ∨ status = 204 →
      write_points lib conv line_serialization self points precision rp
        (.ok ⟨status, body⟩) = .ok (.ok ())) ∧
    (status = 400 →
      write_points lib conv line_serialization self points precision rp
        (.ok ⟨status, body⟩) = .ok (.error (.SyntaxError (conv body)))) ∧
    (status = 401 ∨ status = 403 →
      write_points lib conv line_serialization self points precision rp
        (.ok ⟨status, body⟩)
        = .ok (.error (.InvalidCredentials "Invalid authentication credentials."))) ∧
    (status = 404 →
      write_points lib conv line_serialization self points precision rp
        (.ok ⟨status, body⟩) = .ok (.error (.DataBaseDoesNotExist (conv body)))) ∧
    (status = 500 →
      write_points lib conv line_serialization self points precision rp
        (.ok ⟨status, body⟩)
        = .ok (.error (.RetentionPolicyDoesNotExist body))) ∧
    (status ∉ ([200, 204, 400, 401, 403, 404, 500] : List Nat) →
      write_points lib conv line_serialization self points precision rp
        (.ok ⟨status, body⟩)
        = .ok (.error (.Unknow "There is something wrong"))) := by
  refine ⟨?_, ?_, ?_, ?_, ?_, ?_⟩
  · rintro (h | h) <;> subst h <;>
      simp [write_points, Outcome.bind, hurl]
  · intro h; subst h
    simp [write_points, Outcome.bind, hurl]
  · rintro (h | h) <;> subst h <;>
      simp [write_points, Outcome.bind, hurl]
  · intro h; subst h
    simp [write_points, Outcome.bind, hurl]
  · intro h; subst h
    simp [write_points, Outcome.bind, hurl]
  · intro h
    simp only [List.mem_cons, List.not_mem_nil, or_false] at h
    push_neg at h
    obtain ⟨h200, h204, h400, h401, h403, h404, h500⟩ := h
    simp [write_points, Outcome.bind, hurl, h200, h204, h400, h401, h403, h404, h500]

/-- Concrete instantiation of `write_status_table` at status 400. -/
theorem write_status_table_witness :
    write_points trivLib id (fun _ => "") cfgEx [] none none
      (.ok ⟨400, "syntax oops"⟩) = .ok (.error (.SyntaxError "syntax oops")) := by
  have h := write_status_table trivLib id (fun _ => "") cfgEx [] none none
    "http://hwrite" rfl 400 "syntax oops"
  exact h.2.1 rfl

end Influx

namespace Influx

/-- C5: for every call, write or query, whose response status is 401 or 403,
and for every response body, the result is `InvalidCredentials` with the
fixed message "Invalid authentication credentials."; the body content has no
influence on the outcome. -/
theorem unauthorized_invalid_credentials (lib : UrlLib) (conv : String → String)
    (line_serialization : List Point → String) (parseQuery : String → Option Query)
    (self : InfluxClient) (points : List Point) (precision : Option Precision)
    (rp : Option String) (q : String) (epoch : Option Precision) (chunked : Bool)
    (u v : String)
    (hw : build_url lib self "write" (some (write_params self.db precision rp))
      = .ok u)
    (hq : build_url lib self "query" (some (query_params self.db q epoch chunked))
      = .ok v)
    (status : Nat) (hstatus : status = 401 ∨ status = 403) (body : String) :
    write_points lib conv line_serialization self points precision rp
        (.ok ⟨status, body⟩)
        = .ok (.error (.InvalidCredentials "Invalid authentication credentials."))
      ∧ send_request lib parseQuery conv self q epoch chunked
        (fun _ => .ok ⟨status, body⟩)
        = .ok (.error (.InvalidCredentials "Invalid authentication credentials.")) := by
  rcases hstatus with h | h <;> subst h <;>
    exact ⟨by simp [write_points, Outcome.bind, hw],
      by simp [send_request, Outcome.bind, hq]⟩

/-- Concrete instantiation of `unauthorized_invalid_credentials` at 401. -/
theorem unauthorized_invalid_credentials_witness :
    write_points trivLib id (fun _ => "") cfgEx [] none none
        (.ok ⟨401, "ignored"⟩)
        = .ok (.error (.InvalidCredentials "Invalid authentication credentials."))
      ∧ send_request trivLib (fun s => some (qDoc s)) id cfgEx "q" none false
        (fun _ => .ok ⟨401, "ignored"⟩)
        = .ok (.error (.InvalidCredentials "Invalid authentication credentials.")) :=
  unauthorized_invalid_credentials trivLib id (fun _ => "")
    (fun s => some (qDoc s)) cfgEx [] none none "q" none false
    "http://hwrite" "http://hquery" rfl rfl 401 (Or.inl rfl) "ignored"

/-- C4: every status outside the known table of its path yields the `Unknow`
error kind with a generic message, never a panic (the outcome is an `ok`
typed result) and never any other error kind: outside
200/204/400/401/403/404/500 on the write path, outside 200/204/400/401/403 on
the query path. -/
theorem unknown_status_yields_unknow (lib : UrlLib) (conv : String → String)
    (line_serialization : List Point → String) (parseQuery : String → Option Query)
    (self : InfluxClient) (points : List Point) (precision : Option Precision)
    (rp : Option String) (q : String) (epoch : Option Precision) (chunked : Bool)
    (u v : String)
    (hw : build_url lib self "write" (some (write_params self.db precision rp))
      = .ok u)
    (hq : build_url lib self "query" (some (query_params self.db q epoch chunked))
      = .ok v)
    (status : Nat) (body : String) :
    (status ∉ ([200, 204, 400, 401, 403, 404, 500] : List Nat) →
      write_points lib conv line_serialization self points precision rp
        (.ok ⟨status, body⟩)
        = .ok (.error (.Unknow "There is something wrong"))) ∧
    (status ∉ ([200, 204, 400, 401, 403] : List Nat) →
      send_request lib parseQuery conv self q epoch chunked
        (fun _ => .ok ⟨status, body⟩)
        = .ok (.error (.Unknow "There is something wrong"))) := by
  constructor
  · intro h
    simp only [List.mem_cons, List.not_mem_nil, or_false] at h
    push_neg at h
    obtain ⟨h200, h204, h400, h401, h403, h404, h500⟩ := h
    simp [write_points, Outcome.bind, hw, h200, h204, h400, h401, h403, h404, h500]
  · intro h
    simp only [List.mem_cons, List.not_mem_nil, or_false] at h
    push_neg at h
    obtain ⟨h200, h204, h400, h401, h403⟩ := h
    simp [send_request, Outcome.bind, hq, h200, h204, h400, h401, h403]

/-- Concrete instantiation of `unknown_status_yields_unknow` at status 999. -/
theorem unknown_status_yields_unknow_witness :
    write_points trivLib id (fun _ => "") cfgEx [] none none
        (.ok ⟨999, "b"⟩) = .ok (.error (.Unknow "There is something wrong"))
      ∧ send_request trivLib (fun s => some (qDoc s)) id cfgEx "q" none false
        (fun _ => .ok ⟨999, "b"⟩)
        = .ok (.error (.Unknow "There is something wrong")) := by
  have h := unknown_status_yields_unknow trivLib id (fun _ => "")
    (fun s => some (qDoc s)) cfgEx [] none none "q" none false
    "http://hwrite" "http://hquery" rfl rfl 999 "b"
  exact ⟨h.1 (by decide), h.2 (by decide)⟩

/-- C3: on the query path a 400 response is handled by parsing the body as a
`Query` JSON document, extracting its `error` field, applying the conversion
rule, and returning `SyntaxError` with that message — under the precondition
that the body parses and the `error` field is present. -/
theorem query_400_syntax_error (lib : UrlLib) (parseQuery : String → Option Query)
    (conv : String → String) (self : InfluxClient) (q : String)
    (epoch : Option Precision) (chunked : Bool) (v : String)
    (hurl : build_url lib self "query" (some (query_params self.db q epoch chunked))
      = .ok v)
    (body : String) (qv : Query) (msg : String)
    (hparse : parseQuery body = some qv) (herr : qv.error = some msg) :
    send_request lib parseQuery conv self q epoch chunked
      (fun _ => .ok ⟨400, body⟩) = .ok (.error (.SyntaxError (conv msg))) := by
  simp [send_request, Outcome.bind, hurl, hparse, herr]

/-- Concrete instantiation of `query_400_syntax_error`. -/
theorem query_400_syntax_error_witness :
    send_request trivLib (fun s => some (qDoc s)) id cfgEx "q" none false
      (fun _ => .ok ⟨400, "boom"⟩) = .ok (.error (.SyntaxError "boom")) :=
  query_400_syntax_error trivLib (fun s => some (qDoc s)) id cfgEx "q" none false
    "http://hquery" rfl "boom" (qDoc "boom") "boom" rfl rfl

/-- C7: for every successful (status 200 or 204) non-chunked query whose body
parses as one `Query` document, the eager `query` operation returns that
document's `results` field unchanged. -/
theorem query_eager_results (lib : UrlLib) (parseQuery : String → Option Query)
    (conv : String → String) (self : InfluxClient) (q : String)
    (epoch : Option Precision) (v : String)
    (hurl : build_url lib self "query" (some (query_params self.db q epoch false))
      = .ok v)
    (status : Nat) (hstatus : status = 200 ∨ status = 204) (body : String)
    (qv : Query) (hparse : parseQuery body = some qv) :
    query lib parseQuery conv self q epoch (fun _ => .ok ⟨status, body⟩)
      = .ok (.ok qv.results) := by
  rcases hstatus with h | h <;> subst h <;>
    simp [query, query_raw, send_request, Outcome.bind, hurl, hparse]

/-- Concrete instantiation of `query_eager_results`. -/
theorem query_eager_results_witness :
    query trivLib (fun s => some (qDoc s)) id cfgEx "q" none
      (fun _ => .ok ⟨200, "payload"⟩) = .ok (.ok (qDoc "payload").results) :=
  query_eager_results trivLib (fun s => some (qDoc s)) id cfgEx "q" none
    "http://hquery" rfl 200 (Or.inl rfl) "payload" (qDoc "payload") rfl

end Influx

namespace Influx

/-- C2 (counterexample): a 200-status query response whose body fails to
parse as JSON does not produce a typed error value — `query_raw` unwraps the
parse result, so the call panics. -/
theorem query_parse_failure_panics :
    query trivLib (fun _ => none) id cfgEx "q" none
      (fun _ => .ok ⟨200, "not json"⟩) = .panicked "serde_json from_str unwrap" := by
  rfl

/-- C2 (amended): with a host string that URL-parses, every failure on the
write path is surfaced as a typed result for any status, body or transport
error; the query path likewise, provided a 200/204 body parses as a `Query`
document and a 400 body parses with its `error` field present — exactly the
inputs on which the source's unwraps cannot fire. -/
theorem typed_errors_outside_panic_paths (lib : UrlLib) (conv : String → String)
    (line_serialization : List Point → String) (parseQuery : String → Option Query)
    (self : InfluxClient) (points : List Point) (precision : Option Precision)
    (rp : Option String) (q : String) (epoch : Option Precision)
    (u v : String)
    (hw : build_url lib self "write" (some (write_params self.db precision rp))
      = .ok u)
    (hq : build_url lib self "query" (some (query_params self.db q epoch false))
      = .ok v)
    (sr : SendResult)
    (h400 : ∀ resp, sr = .ok resp → resp.status = 400 →
      ∃ qv msg, parseQuery resp.body = some qv ∧ qv.error = some msg)
    (h200 : ∀ resp, sr = .ok resp → resp.status = 200 ∨ resp.status = 204 →
      ∃ qv, parseQuery resp.body = some qv) :
    (∃ r, write_points lib conv line_serialization self points precision rp sr
        = .ok r) ∧
    (∃ r, query lib parseQuery conv self q epoch (fun _ => sr) = .ok r) := by
  constructor
  · cases sr with
    | err e => exact ⟨.error (.Transport e), by simp [write_points, Outcome.bind, hw]⟩
    | ok res =>
      simp only [write_points, Outcome.bind, hw]
      exact ⟨_, rfl⟩
  · cases sr with
    | err e =>
      exact ⟨.error (.Transport e),
        by simp [query, query_raw, send_request, Outcome.bind, hq]⟩
    | ok res =>
      by_cases h2 : res.status = 200 ∨ res.status = 204
      · obtain ⟨qv, hqv⟩ := h200 res rfl h2
        exact ⟨.ok qv.results,
          by simp [query, query_raw, send_request, Outcome.bind, hq, h2, hqv]⟩
      · push_neg at h2
        by_cases h4 : res.status = 400
        · obtain ⟨qv, msg, hqv, hmsg⟩ := h400 res rfl h4
          exact ⟨.error (.SyntaxError (conv msg)),
            by simp [query, query_raw, send_request, Outcome.bind, hq,
              h2.1, h2.2, h4, hqv, hmsg]⟩
        · by_cases h1 : res.status = 401 ∨ res.status = 403
          · exact ⟨.error (.InvalidCredentials "Invalid authentication credentials."),
              by simp [query, query_raw, send_request, Outcome.bind, hq,
                h2.1, h2.2, h4, h1]⟩
          · push_neg at h1
            exact ⟨.error (.Unknow "There is something wrong"),
              by simp [query, query_raw, send_request, Outcome.bind, hq,
                h2.1, h2.2, h4, h1.1, h1.2]⟩

/-- Concrete instantiation of `typed_errors_outside_panic_paths` at a 500
response. -/
theorem typed_errors_outside_panic_paths_witness :
    (∃ r, write_points trivLib id (fun _ => "") cfgEx [] none none
        (.ok ⟨500, "x"⟩) = .ok r) ∧
    (∃ r, query trivLib (fun s => some (qDoc s)) id cfgEx "q" none
        (fun _ => .ok ⟨500, "x"⟩) = .ok r) :=
  typed_errors_outside_panic_paths trivLib id (fun _ => "")
    (fun s => some (qDoc s)) cfgEx [] none none "q" none
    "http://hwrite" "http://hquery" rfl rfl (.ok ⟨500, "x"⟩)
    (fun resp _ _ => ⟨qDoc resp.body, resp.body, rfl, rfl⟩)
    (fun resp _ _ => ⟨qDoc resp.body, rfl⟩)

/-- Pulling on the chunk cursor over a concatenation of independently
parseable documents yields exactly the document values, in order. -/
theorem chunkCollect_concat (parseOne : String → Option (Query × String))
    (hend : parseOne "" = none) (docs : List String) (queries : List Query)
    (hall : List.Forall₂
      (fun d qv => ∀ rest, parseOne (d ++ rest) = some (qv, rest)) docs queries) :
    ∀ fuel, docs.length ≤ fuel →
      chunkCollect parseOne fuel (concatDocs docs) = queries := by
  induction hall with
  | nil =>
    intro fuel _
    cases fuel <;> simp [chunkCollect, concatDocs, hend]
  | @cons d qv ds qs hd htail ih =>
    intro fuel hf
    cases fuel with
    | zero => simp at hf
    | succ f =>
      have hstep := hd (concatDocs ds)
      have hle : ds.length ≤ f := Nat.le_of_succ_le_succ (by simpa using hf)
      simp [concatDocs, chunkCollect, hstep, ih f hle]

/-- C8: for a successful chunked query whose response body is the
concatenation of documents each independently parseable as one `Query`
value, the returned cursor starts at the full body, and pulling on it yields
exactly one `Query` per document, in arrival order, each pull consuming only
its own document. -/
theorem chunked_stream_yields_per_document (lib : UrlLib)
    (parseQuery : String → Option Query) (conv : String → String)
    (self : InfluxClient) (q : String) (epoch : Option Precision) (v : String)
    (hurl : build_url lib self "query" (some (query_params self.db q epoch true))
      = .ok v)
    (docs : List String) (queries : List Query)
    (parseOne : String → Option (Query × String))
    (hend : parseOne "" = none)
    (hparse : List.Forall₂
      (fun d qv => ∀ rest, parseOne (d ++ rest) = some (qv, rest)) docs queries)
    (fuel : Nat) (hfuel : docs.length ≤ fuel)
    (status : Nat) (hstatus : status = 200 ∨ status = 204) :
    query_raw_chunked lib parseQuery conv self q epoch
        (fun _ => .ok ⟨status, concatDocs docs⟩) = .ok (.ok (concatDocs docs))
      ∧ chunkCollect parseOne fuel (concatDocs docs) = queries := by
  constructor
  · rcases hstatus with h | h <;> subst h <;>
      simp [query_raw_chunked, send_request, Outcome.bind, hurl]
  · exact chunkCollect_concat parseOne hend docs queries hparse fuel hfuel

/-- Concrete instantiation of `chunked_stream_yields_per_document` on a body
of three concatenated one-character documents. -/
theorem chunked_stream_yields_per_document_witness :
    query_raw_chunked trivLib (fun s => some (qDoc s)) id cfgEx "q" none
        (fun _ => .ok ⟨200, concatDocs ["a", "b", "c"]⟩)
        = .ok (.ok (concatDocs ["a", "b", "c"]))
      ∧ chunkCollect exParse 3 (concatDocs ["a", "b", "c"])
        = [qDoc "a", qDoc "b", qDoc "c"] :=
  chunked_stream_yields_per_document trivLib (fun s => some (qDoc s)) id cfgEx
    "q" none "http://hquery" rfl ["a", "b", "c"] [qDoc "a", qDoc "b", qDoc "c"]
    exParse rfl
    (.cons (fun rest => by cases rest; rfl)
      (.cons (fun rest => by cases rest; rfl)
        (.cons (fun rest => by cases rest; rfl) .nil)))
    3 (by decide) 200 (Or.inl rfl)

/-- C10 (counterexample): with an empty configured host — which the `url`
crate's `Url::parse` rejects — `ping` panics inside `build_url` instead of
returning a boolean. -/
theorem ping_empty_host_panics :
    ping emptyHostLib cfgEmptyHost (.ok ⟨200, ""⟩)
      = .panicked "Url::parse unwrap" := by
  rfl

/-- C10 (amended): provided the configured host URL-parses (so `build_url`
succeeds), `ping` never returns an error or panics: it returns `true`
exactly when the request completed with status 200, and `false` both for
every other status and for every transport-level failure. -/
theorem ping_status_200_iff_true (lib : UrlLib) (self : InfluxClient)
    (u : String) (hurl : build_url lib self "ping" none = .ok u)
    (sr : SendResult) :
    ∃ b, ping lib self sr = .ok b ∧
      (b = true ↔ ∃ resp, sr = SendResult.ok resp ∧ resp.status = 200) := by
  cases sr with
  | err e =>
    refine ⟨false, by simp [ping, Outcome.bind, hurl], ?_⟩
    simp
  | ok resp =>
    refine ⟨resp.status == 200, by simp [ping, Outcome.bind, hurl], ?_⟩
    constructor
    · intro hb
      exact ⟨resp, rfl, by simpa [beq_iff_eq] using hb⟩
    · rintro ⟨r, hr, h200⟩
      injection hr with h
      subst h
      simpa [beq_iff_eq] using h200

/-- Concrete instantiation of `ping_status_200_iff_true` at a 200 response. -/
theorem ping_status_200_iff_true_witness :
    ∃ b, ping trivLib cfgEx (.ok ⟨200, ""⟩) = .ok b ∧
      (b = true ↔ ∃ resp, SendResult.ok ⟨200, ""⟩ = SendResult.ok resp
        ∧ resp.status = 200) :=
  ping_status_200_iff_true trivLib cfgEx "http://hping" rfl (.ok ⟨200, ""⟩)

end Influx
